import Mathlib

/-!
Verification of the UE4RESTfulMasterServer registry (src/MasterServer.py)
against its natural-language specification.

The embedding models the `servers` resource: the `Server` table rows, the
query construction `Server.args2query`, the registration handler
`ServersList.post`, the latest-server handler `ServerLatest.get`, the
check-in handler `ServerByURL.put`, and the background sweep
`set_server_inactive`.  The database table is modelled as a `List Server`;
SQL `UPDATE ... WHERE` becomes a `List.map` guarded by the WHERE predicate,
`Query.get(pk)` becomes `List.find?` on the primary key, and `INSERT`
appends.  Timestamps (`arrow` instants) are modelled as integers.
-/

namespace MasterServerPy

/-- Time instants (arrow timestamps), modelled as integer seconds. -/
abbrev Time := Int

/-- One row of the `Server` table (MasterServer.py lines 58-69).
`registration_time` is the liveness timestamp the spec calls
`last_checkin`: it is refreshed by every successful write and compared
against the cutoff by the sweeper. -/
structure Server where
  url : String
  name : String
  game_id : Int
  registration_time : Time
  ip : Option String
  port : Int
  game_mode : String
  game_map : String
  current_players : Int
  max_players : Int
  active : Bool
  deriving Repr, DecidableEq

/-- The parsed query arguments of `server_request_parser`
(MasterServer.py lines 154-196); every argument is optional, so an absent
argument parses to Python `None`, modelled as `none`. The `limit`
argument is handled separately by the endpoint (lines 219-222) and plays
no role in the claims, which assume no limit truncation. -/
structure QueryArgs where
  game_id : Option Int := none
  game_mode : Option String := none
  game_map : Option String := none
  max_players : Option Int := none
  active : Option Bool := none
  slots : Option Int := none
  deriving Repr, DecidableEq

/-- Python truthiness of an optional integer: `None` and `0` are falsy,
every other integer (negative included) is truthy. -/
def truthyInt : Option Int → Bool
  | none => false
  | some n => n != 0

/-- Python truthiness of an optional string: `None` and `""` are falsy. -/
def truthyStr : Option String → Bool
  | none => false
  | some s => s != ""

/-- Python truthiness of an optional boolean: `None` and `False` are falsy. -/
def truthyBool : Option Bool → Bool
  | none => false
  | some b => b

/-- `Server.args2query` (MasterServer.py lines 71-100) as the row
predicate of the SQL query it builds: each criterion contributes a
conjunct only when its value is truthy (`if game_id:` etc.), so a `None`
or falsy value applies no filtering.  The `getD` defaults are never
reached: the truthiness guard guarantees the option is `some`.
Line 98 filters `current_players <= max_players - slots`. -/
def args2query (q : QueryArgs) (r : Server) : Bool :=
  (if truthyInt q.game_id then r.game_id == q.game_id.getD 0 else true) &&
  (if truthyStr q.game_mode then r.game_mode == q.game_mode.getD "" else true) &&
  (if truthyStr q.game_map then r.game_map == q.game_map.getD "" else true) &&
  (if truthyInt q.max_players then decide (r.max_players ≤ q.max_players.getD 0) else true) &&
  (if truthyBool q.active then r.active == q.active.getD true else true) &&
  (if truthyInt q.slots then decide (r.current_players ≤ r.max_players - q.slots.getD 0) else true)

/-- The filtered listing produced by `ServersList.get`
(MasterServer.py lines 209-230) before the optional `limit` is applied:
every stored row satisfying the query predicate, in table order. -/
def listServers (q : QueryArgs) (store : List Server) : List Server :=
  store.filter (args2query q)

/-- `Server.query.get(url)`: point lookup by the primary key `url`. -/
def getServer (store : List Server) (url : String) : Option Server :=
  store.find? (fun r => r.url == url)

/-- The criterion-satisfaction relation written from the words of the
specification (spec section 4.4): a supplied criterion always filters
(`game_id`, `game_mode`, `map`, `active` by exact equality; `max_players`
by `record max_players ≤ given value`; `slots` by
`max_players - current_players ≥ slots`), and an absent criterion applies
no filtering.  Kept separate from `args2query`, which is translated from
the source, so the two can be compared. -/
def specSatisfies (q : QueryArgs) (r : Server) : Bool :=
  (match q.game_id with | none => true | some g => r.game_id == g) &&
  (match q.game_mode with | none => true | some m => r.game_mode == m) &&
  (match q.game_map with | none => true | some m => r.game_map == m) &&
  (match q.max_players with | none => true | some m => decide (r.max_players ≤ m)) &&
  (match q.active with | none => true | some a => r.active == a) &&
  (match q.slots with | none => true | some k => decide (r.max_players - r.current_players ≥ k))

/-- An argument set in which every supplied criterion is truthy, so the
truthiness guards of `args2query` and plain presence coincide. -/
def truthySupplied (q : QueryArgs) : Bool :=
  (match q.game_id with | none => true | some g => g != 0) &&
  (match q.game_mode with | none => true | some s => s != "") &&
  (match q.game_map with | none => true | some s => s != "") &&
  (match q.max_players with | none => true | some m => m != 0) &&
  (q.active != some false) &&
  (match q.slots with | none => true | some k => k != 0)

/-- The registration payload accepted by `ServersList.post`
(`api_server_model`, MasterServer.py lines 114-148).  The restplus model
marks no field as required and checks only JSON types, so a payload that
deserializes carries these typed fields; `ip` is genuinely optional
(lines 244-249 branch on its presence). -/
structure Payload where
  name : String
  game_id : Int
  ip : Option String
  port : Int
  game_mode : String
  game_map : String
  current_players : Int
  max_players : Int
  deriving Repr, DecidableEq

/-- Outcome of `ServersList.post`: line 264 returns 200 `Updated`,
line 270 returns 201 `Created`.  No other outcome is reachable for a
type-correct payload: the handler performs no range or consistency
validation. -/
inductive PostResult
  | created201
  | updated200
  deriving Repr, DecidableEq

/-- The canonical address computed at MasterServer.py lines 244-250:
`client_addr = request.remote_addr`, overridden by `api.payload['ip']`
whenever the key `ip` is present (a key-presence test, not a truthiness
test), then `url = '{}:{}'.format(client_addr, port)`. -/
def derivedUrl (p : Payload) (remote_addr : String) : String :=
  (match p.ip with
   | some ip => ip
   | none => remote_addr) ++ ":" ++ toString p.port

/-- `ServersList.post` (MasterServer.py lines 236-270).
`startTime` is the constant timestamp baked into the column default
`registration_time = db.Column(..., default=arrow.now())` (line 62):
`arrow.now()` is called once, when the class body executes at import, so
every INSERT that leaves the column unset stores that import-time value.
`now` is `arrow.now()` at the time of the call (line 262).
Update branch (lines 259-264): marshmallow loads the payload into the
identity-mapped existing row, the handler sets `active = True` and
`registration_time = arrow.now()`, and the bulk
`update(get_model_dict(...))` writes every column of that row, so the
net row is the payload fields plus `active := true`,
`registration_time := now`, with `ip` untouched (it is not a
`ServerSchema` field).  Insert branch (lines 267-270): `session.add`
stores a row whose unset columns take their defaults:
`registration_time := startTime`, `active := true`, `ip := none`
(`ip` is not a `ServerSchema` field, so the loaded instance leaves it
unset despite line 248). -/
def ServersList_post (startTime now : Time) (remote_addr : String) (p : Payload)
    (store : List Server) : PostResult × List Server :=
  let url := derivedUrl p remote_addr
  match getServer store url with
  | some _ =>
      (PostResult.updated200,
       store.map (fun r =>
         if r.url == url then
           { url := url, name := p.name, game_id := p.game_id,
             registration_time := now, ip := r.ip, port := p.port,
             game_mode := p.game_mode, game_map := p.game_map,
             current_players := p.current_players, max_players := p.max_players,
             active := true }
         else r))
  | none =>
      (PostResult.created201,
       store ++ [{ url := url, name := p.name, game_id := p.game_id,
                   registration_time := startTime, ip := none, port := p.port,
                   game_mode := p.game_mode, game_map := p.game_map,
                   current_players := p.current_players, max_players := p.max_players,
                   active := true }])

/-- `ORDER BY registration_time DESC` followed by `.first()`: the row
with the greatest `registration_time` among the results (first such row
on ties).  Models line 291. -/
def pickFirstDesc : List Server → Option Server
  | [] => none
  | r :: rs =>
      match pickFirstDesc rs with
      | none => some r
      | some r2 => if r2.registration_time > r.registration_time then some r2 else some r

/-- `ServerLatest.get` (MasterServer.py lines 279-292): forces
`query_args['active'] = True` (line 287), runs the same `args2query`
engine, orders by `registration_time` descending and takes the first
row; `first_or_404` turns an empty result into a 404, modelled as
`none`. -/
def ServerLatest_get (q : QueryArgs) (store : List Server) : Option Server :=
  pickFirstDesc (listServers { q with active := some true } store)

/-- Outcome of `ServerByURL.put`. -/
inductive PutResult
  | ok200
  | notFound404
  | internalError500
  deriving Repr, DecidableEq

/-- `ServerByURL.put` (MasterServer.py lines 312-340).  The handler
deserializes the payload (line 319) and looks the row up (line 322), but
line 325 branches on `new_Server_row`, a name that is never assigned
anywhere in the file (the lookup result is bound to `server_row`), so
every request raises `NameError` and is answered with an internal
error, never 200 nor 404. -/
def ServerByURL_put (server_url : String) (_p : Payload) (store : List Server) : PutResult :=
  let _server_row := getServer store server_url
  PutResult.internalError500

/-- `server_inactive_time = 3.0` (MasterServer.py line 345), the TTL and
sweep interval, in seconds. -/
def server_inactive_time : Time := 3

/-- `set_server_inactive` (MasterServer.py lines 347-356): computes
`last_active_time = arrow.now().shift(seconds=-server_inactive_time)`
and issues
`UPDATE ... SET active = false WHERE registration_time < last_active_time AND active = true`;
rows not matching the WHERE clause are untouched. -/
def set_server_inactive (now : Time) (store : List Server) : List Server :=
  let last_active_time := now - server_inactive_time
  store.map (fun r =>
    if r.registration_time < last_active_time && r.active then
      { r with active := false }
    else r)

/-- Every stored liveness timestamp is at most `t`.  Along any real
execution this holds of the store at each call with `t` the call time,
because every row was written at an earlier instant. -/
def storeTimesLE (store : List Server) (t : Time) : Bool :=
  store.all (fun r => r.registration_time ≤ t)

/-- A concrete stored row used to instantiate theorems that carry
hypotheses. -/
def sampleServer : Server :=
  { url := "a:7", name := "s", game_id := 1, registration_time := 10,
    ip := none, port := 7, game_mode := "ffa", game_map := "m1",
    current_players := 2, max_players := 4, active := true }

/-- A concrete registration payload whose derived address is the url of
`sampleServer`. -/
def samplePayload : Payload :=
  { name := "s2", game_id := 1, ip := some "a", port := 7,
    game_mode := "tdm", game_map := "m2", current_players := 3, max_players := 6 }

/- ------------------------------------------------------------------ -/
/- Helper lemmas                                                      -/
/- ------------------------------------------------------------------ -/

/-- The slots inequality of line 98, `current ≤ max - slots`, is the
same test as the spec wording `max - current ≥ slots`. -/
theorem slots_decide_comm (c m k : Int) :
    decide (c ≤ m - k) = decide (k ≤ m - c) :=
  decide_eq_decide.mpr (by omega)

/-- When every supplied criterion is truthy, the predicate compiled by
`args2query` agrees row-wise with the criterion satisfaction written
from the spec. -/
theorem args2query_eq_specSatisfies (q : QueryArgs) (r : Server)
    (h : truthySupplied q = true) : args2query q r = specSatisfies q r := by
  obtain ⟨gid, gmode, gmap, maxp, act, slo⟩ := q
  simp only [truthySupplied, Bool.and_eq_true] at h
  obtain ⟨⟨⟨⟨⟨h1, h2⟩, h3⟩, h4⟩, h5⟩, h6⟩ := h
  cases gid <;> cases gmode <;> cases gmap <;> cases maxp <;>
    cases act <;> cases slo <;>
    simp_all [args2query, specSatisfies, truthyInt, truthyStr, truthyBool,
      slots_decide_comm]

/- ------------------------------------------------------------------ -/
/- C10                                                                -/
/- ------------------------------------------------------------------ -/

/-- C10: for every query in which a criterion is supplied with a falsy
value (`game_id=0`, `max_players=0`, `slots=0`, `active=false`, or an
empty-string `game_mode` or `game_map`), `args2query` applies no filter
for that criterion: the listing equals the identical query with that
criterion absent.  In particular `active=false` never selects only
inactive servers. -/
theorem falsy_criteria_ignored (q : QueryArgs) (store : List Server) :
    listServers { q with game_id := some 0 } store
      = listServers { q with game_id := none } store ∧
    listServers { q with game_mode := some "" } store
      = listServers { q with game_mode := none } store ∧
    listServers { q with game_map := some "" } store
      = listServers { q with game_map := none } store ∧
    listServers { q with max_players := some 0 } store
      = listServers { q with max_players := none } store ∧
    listServers { q with active := some false } store
      = listServers { q with active := none } store ∧
    listServers { q with slots := some 0 } store
      = listServers { q with slots := none } store := by
  refine ⟨?_, ?_, ?_, ?_, ?_, ?_⟩ <;>
    · unfold listServers
      apply List.filter_congr
      intro r hr
      simp [args2query, truthyInt, truthyStr, truthyBool]

/- ------------------------------------------------------------------ -/
/- C1                                                                 -/
/- ------------------------------------------------------------------ -/

/-- C1, as stated, is false: with the supplied criterion `game_id = 0`
(falsy, so line 82 skips the filter), a record whose `game_id` is 7 is
returned by the listing although it violates the supplied criterion. -/
theorem filter_correctness_counterexample :
    ({ url := "a:7", name := "s", game_id := 7, registration_time := 0,
       ip := none, port := 7, game_mode := "ffa", game_map := "m1",
       current_players := 0, max_players := 4, active := true } : Server)
      ∈ listServers { game_id := some 0 } [
        { url := "a:7", name := "s", game_id := 7, registration_time := 0,
          ip := none, port := 7, game_mode := "ffa", game_map := "m1",
          current_players := 0, max_players := 4, active := true }] ∧
    specSatisfies { game_id := some 0 }
      { url := "a:7", name := "s", game_id := 7, registration_time := 0,
        ip := none, port := 7, game_mode := "ffa", game_map := "m1",
        current_players := 0, max_players := 4, active := true } = false := by
  constructor
  · simp [listServers, args2query, truthyInt, truthyStr, truthyBool]
  · rfl

/-- C1 amended: provided every supplied criterion is truthy (nonzero
`game_id`, `max_players`, `slots`, nonempty `game_mode`, `game_map`,
`active` not `false`), the listing returns a stored record if and only
if the record satisfies every supplied criterion (`game_id`,
`game_mode`, `game_map` by exact equality; `max_players` by
`record.max_players ≤ value`; `active` by exact equality; `slots` by
`max_players - current_players ≥ slots`), with an absent criterion
applying no filtering and no limit truncation assumed. -/
theorem filter_correctness_truthy (q : QueryArgs) (store : List Server)
    (r : Server) (h : truthySupplied q = true) :
    r ∈ listServers q store ↔ r ∈ store ∧ specSatisfies q r = true := by
  simp only [listServers, List.mem_filter]
  rw [args2query_eq_specSatisfies q r h]

/-- Witness: the amended filter-correctness theorem applied at a
concrete query and store. -/
theorem filter_correctness_truthy_witness :
    sampleServer ∈ listServers { game_id := some 1, slots := some 2 } [sampleServer] ↔
      sampleServer ∈ [sampleServer] ∧
        specSatisfies { game_id := some 1, slots := some 2 } sampleServer = true :=
  filter_correctness_truthy { game_id := some 1, slots := some 2 }
    [sampleServer] sampleServer (by decide)

/- ------------------------------------------------------------------ -/
/- C2, C3, C8: the registration handler                               -/
/- ------------------------------------------------------------------ -/

/-- Rewriting, via `g`, the row stored under a key changes exactly that
row, as seen through a lookup on the key, provided `g` keeps the key. -/
theorem find?_map_update (store : List Server) (url : String)
    (g : Server → Server)
    (hg : ∀ r, (r.url == url) = true → ((g r).url == url) = true)
    (old : Server)
    (h : store.find? (fun r => r.url == url) = some old) :
    (store.map (fun r => if r.url == url then g r else r)).find?
      (fun r => r.url == url) = some (g old) := by
  induction store with
  | nil => cases h
  | cons a as ih =>
    simp only [List.map_cons]
    by_cases hc : (a.url == url) = true
    · rw [if_pos hc]
      rw [List.find?_cons_of_pos (p := fun r : Server => r.url == url) _ hc] at h
      injection h with h2
      subst h2
      exact List.find?_cons_of_pos _ (hg a hc)
    · rw [if_neg hc]
      rw [List.find?_cons_of_neg (p := fun r : Server => r.url == url) _ hc] at h
      rw [List.find?_cons_of_neg (p := fun r : Server => r.url == url) _ hc]
      exact ih h

/-- C2: `ServersList.post` answers 201 Created exactly when no record
with the derived address existed before the call, and 200 Updated
exactly when one did (MasterServer.py lines 256-270). -/
theorem registration_status_codes (startTime now : Time) (remote_addr : String)
    (p : Payload) (store : List Server) :
    ((ServersList_post startTime now remote_addr p store).1 = PostResult.created201 ↔
      getServer store (derivedUrl p remote_addr) = none) ∧
    ((ServersList_post startTime now remote_addr p store).1 = PostResult.updated200 ↔
      (getServer store (derivedUrl p remote_addr)).isSome = true) := by
  unfold ServersList_post
  cases h : getServer store (derivedUrl p remote_addr) <;> simp [h]

/-- C3: a successful re-registration to an existing address overwrites
every mutable field (`name`, `game_id`, `game_mode`, `game_map`,
`current_players`, `max_players`) with the payload values, sets
`active := true`, and sets the liveness timestamp `registration_time`
(the spec `last_checkin`) to the time of the call. -/
theorem reregistration_overwrites (startTime now : Time) (remote_addr : String)
    (p : Payload) (store : List Server) (old : Server)
    (h : getServer store (derivedUrl p remote_addr) = some old) :
    getServer (ServersList_post startTime now remote_addr p store).2
        (derivedUrl p remote_addr) =
      some { url := derivedUrl p remote_addr, name := p.name,
             game_id := p.game_id, registration_time := now, ip := old.ip,
             port := p.port, game_mode := p.game_mode, game_map := p.game_map,
             current_players := p.current_players,
             max_players := p.max_players, active := true } := by
  simp only [ServersList_post, h]
  unfold getServer at h ⊢
  exact find?_map_update store (derivedUrl p remote_addr)
    (fun r => { url := derivedUrl p remote_addr, name := p.name,
                game_id := p.game_id, registration_time := now, ip := r.ip,
                port := p.port, game_mode := p.game_mode,
                game_map := p.game_map, current_players := p.current_players,
                max_players := p.max_players, active := true })
    (fun _ _ => beq_self_eq_true _) old h

/-- Witness: the overwrite theorem applied at a one-row store holding
`sampleServer`, whose url is the address derived from `samplePayload`. -/
theorem reregistration_overwrites_witness :
    getServer (ServersList_post 0 20 "9.9.9.9" samplePayload [sampleServer]).2
        (derivedUrl samplePayload "9.9.9.9") =
      some { url := derivedUrl samplePayload "9.9.9.9",
             name := samplePayload.name, game_id := samplePayload.game_id,
             registration_time := 20, ip := sampleServer.ip,
             port := samplePayload.port, game_mode := samplePayload.game_mode,
             game_map := samplePayload.game_map,
             current_players := samplePayload.current_players,
             max_players := samplePayload.max_players, active := true } :=
  reregistration_overwrites 0 20 "9.9.9.9" samplePayload [sampleServer]
    sampleServer (by decide)

/-- C8: after any registration the store holds a record under the key
built from the payload `ip` when present, else the caller's observed
network address, combined with the payload `port` as `"ip:port"`; that
record carries this key as its `url` and the payload's `port`. -/
theorem address_derivation (startTime now : Time) (remote_addr : String)
    (p : Payload) (store : List Server) :
    ∃ r, getServer (ServersList_post startTime now remote_addr p store).2
          (p.ip.getD remote_addr ++ ":" ++ toString p.port) = some r ∧
      r.url = p.ip.getD remote_addr ++ ":" ++ toString p.port ∧
      r.port = p.port := by
  have hd : p.ip.getD remote_addr ++ ":" ++ toString p.port
      = derivedUrl p remote_addr := by
    cases hip : p.ip <;> simp [derivedUrl, hip]
  rw [hd]
  cases h : getServer store (derivedUrl p remote_addr) with
  | none =>
    refine ⟨{ url := derivedUrl p remote_addr, name := p.name,
              game_id := p.game_id, registration_time := startTime,
              ip := none, port := p.port, game_mode := p.game_mode,
              game_map := p.game_map, current_players := p.current_players,
              max_players := p.max_players, active := true }, ?_, rfl, rfl⟩
    simp only [ServersList_post, h]
    unfold getServer at h ⊢
    rw [List.find?_append, h]
    simp
  | some old =>
    refine ⟨{ url := derivedUrl p remote_addr, name := p.name,
              game_id := p.game_id, registration_time := now, ip := old.ip,
              port := p.port, game_mode := p.game_mode,
              game_map := p.game_map, current_players := p.current_players,
              max_players := p.max_players, active := true }, ?_, rfl, rfl⟩
    simp only [ServersList_post, h]
    unfold getServer at h ⊢
    exact find?_map_update store (derivedUrl p remote_addr)
      (fun r => { url := derivedUrl p remote_addr, name := p.name,
                  game_id := p.game_id, registration_time := now, ip := r.ip,
                  port := p.port, game_mode := p.game_mode,
                  game_map := p.game_map,
                  current_players := p.current_players,
                  max_players := p.max_players, active := true })
      (fun _ _ => beq_self_eq_true _) old h

/- ------------------------------------------------------------------ -/
/- C4: the liveness sweep                                             -/
/- ------------------------------------------------------------------ -/

/-- In the zip of a list with its image under `f`, every pair is a point
and its image. -/
theorem zip_map_eq {α β : Type} (f : α → β) (l : List α) (x : α) (y : β)
    (h : (x, y) ∈ l.zip (l.map f)) : y = f x := by
  induction l with
  | nil => simp at h
  | cons a as ih =>
    simp only [List.map_cons, List.zip_cons_cons, List.mem_cons] at h
    rcases h with h | h
    · rw [Prod.mk.injEq] at h
      rw [h.2, h.1]
    · exact ih h

/-- C4: one sweep run computes the cutoff `now - server_inactive_time`
and, row by row, sets `active := false` on every row that is active and
whose liveness timestamp is strictly older than the cutoff, while a row
at or after the cutoff, or already inactive, is left unchanged, and no
field other than `active` changes on any row. -/
theorem sweep_postcondition (now : Time) (store : List Server)
    (r r2 : Server) (h : (r, r2) ∈ store.zip (set_server_inactive now store)) :
    (set_server_inactive now store).length = store.length ∧
    (r.active = true → r.registration_time < now - server_inactive_time →
      r2.active = false) ∧
    (now - server_inactive_time ≤ r.registration_time → r2 = r) ∧
    (r.active = false → r2 = r) ∧
    r2.url = r.url ∧ r2.name = r.name ∧ r2.game_id = r.game_id ∧
    r2.registration_time = r.registration_time ∧ r2.ip = r.ip ∧
    r2.port = r.port ∧ r2.game_mode = r.game_mode ∧
    r2.game_map = r.game_map ∧ r2.current_players = r.current_players ∧
    r2.max_players = r.max_players := by
  have h2 := zip_map_eq _ _ _ _ h
  subst h2
  refine ⟨by simp [set_server_inactive], ?_⟩
  by_cases h3 : r.registration_time < now - server_inactive_time <;>
    by_cases h4 : r.active = true <;>
    simp [h3, h4]
  intro h5
  exfalso
  linarith

/-- Witness: the sweep theorem applied to a one-row store holding an
active row whose timestamp 10 is older than the cutoff 20 - 3. -/
theorem sweep_postcondition_witness :
    ({ sampleServer with active := false } : Server).active = false :=
  (sweep_postcondition 20 [sampleServer] sampleServer
      { sampleServer with active := false } (by decide)).2.1 rfl (by decide)

/- ------------------------------------------------------------------ -/
/- C5: the latest-server query                                        -/
/- ------------------------------------------------------------------ -/

/-- `pickFirstDesc` is `none` exactly on the empty result. -/
theorem pickFirstDesc_eq_none (l : List Server) :
    pickFirstDesc l = none ↔ l = [] := by
  cases l with
  | nil => simp [pickFirstDesc]
  | cons a as =>
    simp only [pickFirstDesc]
    cases pickFirstDesc as with
    | none => simp
    | some r2 =>
      by_cases hc : r2.registration_time > a.registration_time <;> simp [hc]

/-- A row picked by `pickFirstDesc` is one of the rows. -/
theorem pickFirstDesc_mem (l : List Server) (r : Server)
    (h : pickFirstDesc l = some r) : r ∈ l := by
  induction l generalizing r with
  | nil => cases h
  | cons a as ih =>
    simp only [pickFirstDesc] at h
    cases h2 : pickFirstDesc as with
    | none =>
      rw [h2] at h
      have h3 : some a = some r := h
      injection h3 with h3
      subst h3
      exact List.mem_cons_self a as
    | some rm =>
      rw [h2] at h
      have h3 : (if rm.registration_time > a.registration_time then
          some rm else some a) = some r := h
      by_cases hc : rm.registration_time > a.registration_time
      · rw [if_pos hc] at h3
        injection h3 with h3
        subst h3
        exact List.mem_cons_of_mem a (ih rm h2)
      · rw [if_neg hc] at h3
        injection h3 with h3
        subst h3
        exact List.mem_cons_self a as

/-- A row picked by `pickFirstDesc` carries the greatest liveness
timestamp of the rows. -/
theorem pickFirstDesc_max (l : List Server) (r : Server)
    (h : pickFirstDesc l = some r) :
    ∀ r2 ∈ l, r2.registration_time ≤ r.registration_time := by
  induction l generalizing r with
  | nil => cases h
  | cons a as ih =>
    intro r2 hr2
    simp only [pickFirstDesc] at h
    cases h2 : pickFirstDesc as with
    | none =>
      rw [h2] at h
      have h3 : some a = some r := h
      injection h3 with h3
      have h4 : as = [] := (pickFirstDesc_eq_none as).mp h2
      subst h4
      rw [← h3]
      have h5 : r2 = a := by simpa using hr2
      rw [h5]
    | some rm =>
      rw [h2] at h
      have h3 : (if rm.registration_time > a.registration_time then
          some rm else some a) = some r := h
      have h6 := ih rm h2
      rcases List.mem_cons.mp hr2 with h4 | h4
      · subst h4
        by_cases hc : rm.registration_time > r2.registration_time
        · rw [if_pos hc] at h3
          injection h3 with h3
          subst h3
          exact le_of_lt hc
        · rw [if_neg hc] at h3
          injection h3 with h3
          subst h3
          exact le_refl _
      · have h5 := h6 r2 h4
        by_cases hc : rm.registration_time > a.registration_time
        · rw [if_pos hc] at h3
          injection h3 with h3
          subst h3
          exact h5
        · rw [if_neg hc] at h3
          injection h3 with h3
          subst h3
          exact le_trans h5 (not_lt.mp hc)

/-- C5: `ServerLatest.get` evaluates the same `args2query` engine with
the `active` criterion forced to `true`; it answers 404 (modelled
`none`) exactly when no stored record matches, and otherwise returns a
single matching record whose liveness timestamp is greatest among the
matches, the top of the descending order. -/
theorem latest_query (q : QueryArgs) (store : List Server) :
    (ServerLatest_get q store = none ↔
      listServers { q with active := some true } store = []) ∧
    ∀ r, ServerLatest_get q store = some r →
      r ∈ listServers { q with active := some true } store ∧
      ∀ r2 ∈ listServers { q with active := some true } store,
        r2.registration_time ≤ r.registration_time := by
  constructor
  · exact pickFirstDesc_eq_none _
  · intro r h
    exact ⟨pickFirstDesc_mem _ r h, pickFirstDesc_max _ r h⟩

/-- Witness: the latest-query theorem applied to an unfiltered query
over a one-row store with an active row. -/
theorem latest_query_witness :
    sampleServer ∈
      listServers { ({} : QueryArgs) with active := some true } [sampleServer] :=
  ((latest_query {} [sampleServer]).2 sampleServer (by decide)).1

/- ------------------------------------------------------------------ -/
/- C6: registration validation is absent                              -/
/- ------------------------------------------------------------------ -/

/-- C6 names a validation the handler does not perform: the payload with
`current_players = 5 > max_players = 2` is not rejected with 400; the
handler registers it (201) and stores the inconsistent row.  The only
checks on the request are the JSON type checks of `api_server_model`
(no field is marked required, no range is constrained), and
`ServerSchema().load` adds none. -/
theorem no_range_validation :
    (ServersList_post 0 10 "9.9.9.9"
        { name := "s", game_id := 1, ip := some "a", port := 7,
          game_mode := "ffa", game_map := "m1",
          current_players := 5, max_players := 2 } []).1
      = PostResult.created201 ∧
    getServer (ServersList_post 0 10 "9.9.9.9"
        { name := "s", game_id := 1, ip := some "a", port := 7,
          game_mode := "ffa", game_map := "m1",
          current_players := 5, max_players := 2 } []).2 "a:7"
      = some { url := "a:7", name := "s", game_id := 1,
               registration_time := 0, ip := none, port := 7,
               game_mode := "ffa", game_map := "m1",
               current_players := 5, max_players := 2, active := true } := by
  constructor
  · rfl
  · decide

/- ------------------------------------------------------------------ -/
/- C7: the checkin endpoint                                           -/
/- ------------------------------------------------------------------ -/

/-- C7 describes intended behavior the handler cannot exhibit:
`ServerByURL.put` answers every request, known address or not, with an
internal error, because line 325 reads the never-assigned name
`new_Server_row` and raises `NameError`; it never returns 200 and never
returns 404. -/
theorem checkin_always_errors (server_url : String) (p : Payload)
    (store : List Server) :
    ServerByURL_put server_url p store = PutResult.internalError500 ∧
    ServerByURL_put server_url p store ≠ PutResult.ok200 ∧
    ServerByURL_put server_url p store ≠ PutResult.notFound404 := by
  refine ⟨rfl, ?_, ?_⟩ <;> simp [ServerByURL_put]

/- ------------------------------------------------------------------ -/
/- C9: monotone liveness timestamps                                   -/
/- ------------------------------------------------------------------ -/

/-- A map that preserves each row's key commutes with lookup. -/
theorem find?_map_keyPreserving (f : Server → Server)
    (hf : ∀ r, (f r).url = r.url) (store : List Server) (url : String)
    (old : Server) (h : store.find? (fun r => r.url == url) = some old) :
    (store.map f).find? (fun r => r.url == url) = some (f old) := by
  induction store with
  | nil => cases h
  | cons a as ih =>
    simp only [List.map_cons]
    by_cases hc : (a.url == url) = true
    · have hc2 : ((f a).url == url) = true := by rw [hf a]; exact hc
      rw [List.find?_cons_of_pos (p := fun r : Server => r.url == url) _ hc] at h
      injection h with h
      subst h
      exact List.find?_cons_of_pos _ hc2
    · have hc2 : ¬((f a).url == url) = true := by rw [hf a]; exact hc
      rw [List.find?_cons_of_neg (p := fun r : Server => r.url == url) _ hc] at h
      rw [List.find?_cons_of_neg (p := fun r : Server => r.url == url) _ hc2]
      exact ih h

/-- C9: a completed registration write never decreases the stored
liveness timestamp of any address, and it keeps every stored timestamp
at most the call time — the invariant that carries the claim across a
sequence of writes with non-decreasing call times.  (Checkin writes
never complete: see the C7 theorem.)  The two hypotheses hold on every
real execution: the process started before the call, and every stored
timestamp was written at or before the call time. -/
theorem last_checkin_monotone (startTime now : Time) (remote_addr : String)
    (p : Payload) (store : List Server) (hstart : startTime ≤ now)
    (hstore : storeTimesLE store now = true) :
    (∀ url old new2,
        getServer store url = some old →
        getServer (ServersList_post startTime now remote_addr p store).2 url
          = some new2 →
        old.registration_time ≤ new2.registration_time) ∧
    storeTimesLE (ServersList_post startTime now remote_addr p store).2 now
      = true := by
  simp only [storeTimesLE, List.all_eq_true, decide_eq_true_eq] at hstore
  cases h : getServer store (derivedUrl p remote_addr) with
  | none =>
    constructor
    · intro url old new2 h1 h2
      simp only [ServersList_post, h] at h2
      unfold getServer at h1 h2
      rw [List.find?_append, h1] at h2
      simp only [Option.or_some] at h2
      injection h2 with h2
      subst h2
      exact le_refl _
    · simp only [ServersList_post, h, storeTimesLE, List.all_eq_true]
      intro r hr
      rcases List.mem_append.mp hr with h1 | h1
      · simpa using hstore r h1
      · have h2 : r.registration_time = startTime := by
          rcases List.mem_singleton.mp h1 with h3
          rw [h3]
        simp [h2]
        exact hstart
  | some old0 =>
    have hf : ∀ r : Server,
        ((if r.url == derivedUrl p remote_addr then
            ({ url := derivedUrl p remote_addr, name := p.name,
               game_id := p.game_id, registration_time := now, ip := r.ip,
               port := p.port, game_mode := p.game_mode,
               game_map := p.game_map,
               current_players := p.current_players,
               max_players := p.max_players, active := true } : Server)
          else r) : Server).url = r.url := by
      intro r
      by_cases hc : (r.url == derivedUrl p remote_addr) = true
      · rw [if_pos hc]
        exact (eq_of_beq hc).symm
      · rw [if_neg hc]
    constructor
    · intro url old new2 h1 h2
      simp only [ServersList_post, h] at h2
      unfold getServer at h1 h2
      rw [find?_map_keyPreserving _ hf store url old h1] at h2
      injection h2 with h2
      have hold : old.registration_time ≤ now :=
        hstore old (List.mem_of_find?_eq_some h1)
      by_cases hc : (old.url == derivedUrl p remote_addr) = true
      · rw [if_pos hc] at h2
        subst h2
        exact hold
      · rw [if_neg hc] at h2
        subst h2
        exact le_refl _
    · simp only [ServersList_post, h, storeTimesLE, List.all_eq_true]
      intro r2 hr2
      rcases List.mem_map.mp hr2 with ⟨r, hr, hr2eq⟩
      subst hr2eq
      by_cases hc : (r.url == derivedUrl p remote_addr) = true
      · rw [if_pos hc]
        simp
      · rw [if_neg hc]
        simpa using hstore r hr

/-- Witness: the monotonicity theorem applied to a re-registration of
the sample row at call time 20, started at time 0. -/
theorem last_checkin_monotone_witness :
    sampleServer.registration_time ≤
      ({ url := "a:7", name := "s2", game_id := 1, registration_time := 20,
         ip := none, port := 7, game_mode := "tdm", game_map := "m2",
         current_players := 3, max_players := 6,
         active := true } : Server).registration_time :=
  (last_checkin_monotone 0 20 "9.9.9.9" samplePayload [sampleServer]
      (by decide) (by decide)).1 "a:7" sampleServer
    { url := "a:7", name := "s2", game_id := 1, registration_time := 20,
      ip := none, port := 7, game_mode := "tdm", game_map := "m2",
      current_players := 3, max_players := 6, active := true }
    (by decide) (by decide)

end MasterServerPy
